import Mathlib

/-!
Verification development for the NYOS pharmaceutical-dashboard backend.

The definitions below are a shallow embedding of the two pieces of logic in
`backend/app/routers/data.py` (the CSV importer, `upload_data`) and
`backend/app/services/gemini_service.py` (the trend analyzer `analyze_trends`
and the stats aggregator `get_full_stats`), over the ORM schema declared in
`backend/app/models.py`.

Modelling conventions:
* Python floats are modelled as rationals (`ℚ`); `datetime` values as integers
  (`ℤ`, one unit per day, so `timedelta(days=d)` is subtraction of `d`).
* A pandas cell is a `Cell`: a parsed number, a string that `pd.to_datetime`
  can parse (tagged with the date it denotes), a string that neither `float`
  nor `pd.to_datetime` accepts, a missing value (`NaN`), or a `datetime`
  object (the latter only arises from the `datetime.utcnow()` defaults in the
  importer, never from a CSV cell).
* Missing float values (`NaN`) are modelled as stored nulls: the SQLite
  backend stores `float('nan')` as `NULL`, so reading the column back yields
  `None`.
* Fallible Python code is embedded in `Except PyErr`; a `.error` value means
  the corresponding exception escapes, aborting the request before the single
  `db.commit()` at the end of `upload_data` runs.
-/

namespace NYOS

/-- Python exceptions that the embedded code paths can raise, plus the one
HTTP rejection (`HTTPException(400)` for a non-`.csv` filename). -/
inductive PyErr where
  | valueError
  | parserError
  | typeError
  | attributeError
  | http400
deriving DecidableEq, Repr

instance {ε α : Type} [DecidableEq ε] [DecidableEq α] : DecidableEq (Except ε α) :=
  fun x y =>
    match x, y with
    | .error a, .error b =>
      if h : a = b then .isTrue (by rw [h])
      else .isFalse (fun hc => h (Except.error.inj hc))
    | .error _, .ok _ => .isFalse (fun hc => Except.noConfusion hc)
    | .ok _, .error _ => .isFalse (fun hc => Except.noConfusion hc)
    | .ok a, .ok b =>
      if h : a = b then .isTrue (by rw [h])
      else .isFalse (fun hc => h (Except.ok.inj hc))

/-- A pandas cell as the importer sees it after `pd.read_csv`. -/
inductive Cell where
  /-- a numeric cell (`float`/`int`); `float()` accepts it. -/
  | num (q : ℚ)
  /-- a string cell that `pd.to_datetime` parses to the date `d` and that
  `float()` rejects (e.g. `"2024-01-05"`). -/
  | dateStr (d : ℤ) (s : String)
  /-- a string cell that neither `float()` nor `pd.to_datetime` accepts. -/
  | rawStr (s : String)
  /-- a missing value (`NaN`). -/
  | nan
  /-- a `datetime` object; only produced by `datetime.utcnow()` defaults. -/
  | dt (d : ℤ)
deriving DecidableEq, Repr, Inhabited

/-- A CSV row: association list from column name to cell. A column absent
from the list is absent from the file (`row.get` falls back to its default). -/
abbrev Row := List (String × Cell)

/-- `row.get(c)` / membership of column `c` in the row. -/
def getCell (row : Row) (c : String) : Option Cell :=
  (row.find? (fun p => p.1 = c)).map (·.2)

/-- `row.get(c, d)` with a single alias. -/
def get1 (row : Row) (c : String) (d : Cell) : Cell :=
  (getCell row c).getD d

/-- `row.get(a, row.get(b, d))`: preferred column `a`, fallback column `b`,
hard-coded default `d`. -/
def get2 (row : Row) (a b : String) (d : Cell) : Cell :=
  (getCell row a).getD (get1 row b d)

/-- `row.get(a, row.get(b))`: both `get`s without hard-coded default, so the
result can be Python `None`. -/
def get2opt (row : Row) (a b : String) : Option Cell :=
  (getCell row a).orElse (fun _ => getCell row b)

/-- Python `float(cell)`.  Numbers pass through, `float('nan')` is `NaN`
(stored as `NULL`, hence `none`), strings that are not numeric literals raise
`ValueError`, and `datetime` objects raise `TypeError`. -/
def pyFloat : Cell → Except PyErr (Option ℚ)
  | .num q => .ok (some q)
  | .nan => .ok none
  | .dateStr _ _ => .error .valueError
  | .rawStr _ => .error .valueError
  | .dt _ => .error .typeError

/-- `pd.to_datetime(cell)`.  Date strings parse to their date, numbers are
interpreted as timestamps, `NaN` becomes `NaT` (stored as `NULL`), a
`datetime` passes through, and an unparseable string raises a parse error. -/
def toDatetime : Cell → Except PyErr (Option ℤ)
  | .num q => .ok (some ⌊q⌋)
  | .nan => .ok none
  | .dateStr d _ => .ok (some d)
  | .rawStr _ => .error .parserError
  | .dt d => .ok (some d)

/-- Round half to even at integer precision (Python 3 `round`). -/
def roundHalfEven (q : ℚ) : ℤ :=
  if q - ⌊q⌋ < 1/2 then ⌊q⌋
  else if q - ⌊q⌋ > 1/2 then ⌊q⌋ + 1
  else if 2 ∣ ⌊q⌋ then ⌊q⌋ else ⌊q⌋ + 1

/-- Python `round(q, n)`. -/
def pyRound (q : ℚ) (n : ℕ) : ℚ :=
  (roundHalfEven (q * 10 ^ n) : ℚ) / 10 ^ n

/-! ## The importer (`upload_data` in `backend/app/routers/data.py`)

Each upserted entity kind stores a natural key together with the non-key
fields set by the importer.  In the source, the update branch assigns exactly
the same field expressions as the insert branch constructs (checked field by
field against `data.py`), so both branches share one field parser here. -/

/-- Non-key fields of `models.Batch` as written by `upload_data`. -/
structure BatchFields where
  product_name : Cell
  manufacturing_date : Option ℤ
  machine : Cell
  operator : Cell
  compression_force : Option ℚ
  hardness : Option ℚ
  weight : Option ℚ
  thickness : Option ℚ
  yield_percent : Option ℚ
  status : Cell
deriving DecidableEq, Repr, Inhabited

/-- Field expressions of the `data_type == "batch"` branch of `upload_data`,
in source evaluation order (the first failing coercion aborts the row and
hence the whole request). -/
def parseBatchFields (now : ℤ) (row : Row) : Except PyErr BatchFields := do
  let md ← toDatetime (get1 row "manufacturing_date" (.dt now))
  let cf ← pyFloat (get2 row "compression_force" "main_compression_force" (.num 0))
  let h ← pyFloat (get2 row "hardness" "ipc_hardness_mean" (.num 0))
  let w ← pyFloat (get2 row "weight" "ipc_weight_mean" (.num 0))
  let th ← pyFloat (get2 row "thickness" "ipc_thickness_mean" (.num 0))
  let yp ← pyFloat (get2 row "yield_percent" "yield_percentage" (.num 98))
  .ok { product_name := get1 row "product_name" (.rawStr "Paracetamol 500mg")
        manufacturing_date := md
        machine := get2 row "machine" "tablet_press" (.rawStr "Unknown")
        operator := get1 row "operator" (.rawStr "Unknown")
        compression_force := cf
        hardness := h
        weight := w
        thickness := th
        yield_percent := yp
        status := get1 row "status" (.rawStr "released") }

/-- Non-key fields of `models.Complaint` as written by `upload_data`. -/
structure ComplaintFields where
  date : Option ℤ
  batch_id : Option Cell
  category : Cell
  severity : Cell
  description : Cell
  status : Cell
deriving DecidableEq, Repr, Inhabited

/-- Field expressions of the `data_type == "complaint"` branch. -/
def parseComplaintFields (now : ℤ) (row : Row) : Except PyErr ComplaintFields := do
  let d ← toDatetime (get2 row "date" "complaint_date" (.dt now))
  .ok { date := d
        batch_id := get2opt row "batch_id" "implicated_batch"
        category := get2 row "category" "complaint_category" (.rawStr "Unknown")
        severity := get2 row "severity" "severity_level" (.rawStr "low")
        description := get2 row "description" "complaint_description" (.rawStr "")
        status := get1 row "status" (.rawStr "open") }

/-- Non-key fields of `models.CAPA` as written by `upload_data`. -/
structure CAPAFields where
  date : Option ℤ
  type : Cell
  source : Cell
  description : Cell
  root_cause : Cell
  status : Cell
deriving DecidableEq, Repr, Inhabited

/-- Field expressions of the `data_type == "capa"` branch. -/
def parseCAPAFields (now : ℤ) (row : Row) : Except PyErr CAPAFields := do
  let d ← toDatetime (get2 row "date" "initiation_date" (.dt now))
  .ok { date := d
        type := get2 row "type" "capa_type" (.rawStr "corrective")
        source := get2 row "source" "source_type" (.rawStr "Unknown")
        description := get1 row "description" (.rawStr "")
        root_cause := get1 row "root_cause" (.rawStr "")
        status := get1 row "status" (.rawStr "open") }

/-- Non-key fields of `models.Equipment` as written by `upload_data`. -/
structure EquipmentFields where
  name : Cell
  calibration_date : Option ℤ
  next_calibration : Option ℤ
  status : Cell
  parameter : Cell
  deviation : Option ℚ
deriving DecidableEq, Repr, Inhabited

/-- Field expressions of the `data_type == "equipment"` branch. -/
def parseEquipmentFields (now : ℤ) (row : Row) : Except PyErr EquipmentFields := do
  let cd ← toDatetime (get1 row "calibration_date" (.dt now))
  let nc ← toDatetime (get1 row "next_calibration" (.dt now))
  let dev ← pyFloat (get1 row "deviation" (.num 0))
  .ok { name := get1 row "name" (.rawStr "Unknown")
        calibration_date := cd
        next_calibration := nc
        status := get1 row "status" (.rawStr "ok")
        parameter := get1 row "parameter" (.rawStr "")
        deviation := dev }

/-- A stored row of an upserted table: natural key plus non-key fields. -/
structure Entry (F : Type) where
  key : Cell
  fields : F
deriving DecidableEq, Repr

instance {F : Type} [Inhabited F] : Inhabited (Entry F) := ⟨⟨default, default⟩⟩

/-- One upserted entity kind of `upload_data`: its natural-key column, the
prefix used to synthesize a key from the running row counter when the key
column is absent, and its field parser. -/
structure UpsertKind (F : Type) where
  keyCol : String
  pfx : String
  parseF : ℤ → Row → Except PyErr F

/-- The four kinds `upload_data` upserts by natural key. -/
def batchKind : UpsertKind BatchFields :=
  { keyCol := "batch_id", pfx := "BATCH-", parseF := parseBatchFields }

def complaintKind : UpsertKind ComplaintFields :=
  { keyCol := "complaint_id", pfx := "CMP-", parseF := parseComplaintFields }

def capaKind : UpsertKind CAPAFields :=
  { keyCol := "capa_id", pfx := "CAPA-", parseF := parseCAPAFields }

def equipmentKind : UpsertKind EquipmentFields :=
  { keyCol := "equipment_id", pfx := "EQ-", parseF := parseEquipmentFields }

/-- Key of a row: `row.get(keyCol, f"PFX-{records_count}")` where `n` is the
0-based count of rows already processed in this import call. -/
def keyOf {F : Type} (k : UpsertKind F) (row : Row) (n : ℕ) : Cell :=
  get1 row k.keyCol (.rawStr (k.pfx ++ toString n))

/-- Replace the first record with key `kid` in place, or append a new one:
`db.query(...).filter(key == kid).first()` followed by either field
assignments on the found record or `db.add` of a new one.  (Pending adds are
visible to later lookups in the same call: the session autoflushes.) -/
def upsertEntry {F : Type} : List (Entry F) → Cell → F → List (Entry F)
  | [], kid, f => [⟨kid, f⟩]
  | e :: es, kid, f =>
    if e.key = kid then ⟨kid, f⟩ :: es else e :: upsertEntry es kid f

/-- The per-row loop of an upserted kind in `upload_data`: processes rows in
order, threading the running `records_count` and the table state.  The lookup
itself cannot fail; a failing field coercion propagates and aborts the call
(nothing commits in that case). -/
def importRows {F : Type} (k : UpsertKind F) (now : ℤ) :
    List Row → ℕ → List (Entry F) → Except PyErr (List (Entry F) × ℕ)
  | [], n, store => .ok (store, n)
  | row :: rs, n, store =>
    match k.parseF now row with
    | .error e => .error e
    | .ok f => importRows k now rs (n + 1) (upsertEntry store (keyOf k row n) f)

/-- A stored `models.QCResult` row as written by `upload_data` (the `id` and
`created_at` bookkeeping columns are storage-generated and never read by the
embedded code, so they are omitted). -/
structure QCRec where
  batch_id : Option Cell
  test_date : Option ℤ
  dissolution : Option ℚ
  assay : Option ℚ
  hardness : Option ℚ
  friability : Option ℚ
  disintegration : Option ℚ
  uniformity : Option ℚ
  result : Cell
deriving DecidableEq, Repr, Inhabited

/-- Field expressions of the `data_type == "qc"` branch of `upload_data`. -/
def parseQCRow (now : ℤ) (row : Row) : Except PyErr QCRec := do
  let td ← toDatetime (get2 row "test_date" "testing_date" (.dt now))
  let dis ← pyFloat (get2 row "dissolution" "dissolution_mean" (.num 0))
  let asy ← pyFloat (get2 row "assay" "assay_result" (.num 0))
  let h ← pyFloat (get2 row "hardness" "hardness_result" (.num 0))
  let fr ← pyFloat (get2 row "friability" "friability_result" (.num 0))
  let dis2 ← pyFloat (get2 row "disintegration" "disintegration_time" (.num 0))
  let uni ← pyFloat (get2 row "uniformity" "content_uniformity_rsd" (.num 0))
  .ok { batch_id := getCell row "batch_id"
        test_date := td
        dissolution := dis
        assay := asy
        hardness := h
        friability := fr
        disintegration := dis2
        uniformity := uni
        result := get2 row "result" "overall_result" (.rawStr "pass") }

/-- The `data_type == "qc"` loop: every row is unconditionally `db.add`ed as
a new `QCResult`; there is no key lookup and no deduplication. -/
def importQC (now : ℤ) : List Row → ℕ → List QCRec → Except PyErr (List QCRec × ℕ)
  | [], n, store => .ok (store, n)
  | row :: rs, n, store =>
    match parseQCRow now row with
    | .error e => .error e
    | .ok q => importQC now rs (n + 1) (store ++ [q])

/-! ## The whole `upload_data` endpoint -/

/-- The persisted store: one table per entity kind plus the upload audit
table (`models.UploadedFile` rows as written by `upload_data`). -/
structure UploadRec where
  filename : String
  data_type : String
  records_count : ℕ
deriving DecidableEq, Repr

structure Store where
  batches : List (Entry BatchFields)
  qcs : List QCRec
  complaints : List (Entry ComplaintFields)
  capas : List (Entry CAPAFields)
  equipment : List (Entry EquipmentFields)
  uploads : List UploadRec
deriving DecidableEq, Repr

/-- The `UploadResponse` returned by `upload_data`. -/
structure UploadResponse where
  filename : String
  records_imported : ℕ
  data_type : String
deriving DecidableEq, Repr

/-- Python `s.endswith(suffix)`, modelled over the strings' characters. -/
def endsWithPy (s suffix : String) : Bool :=
  List.isSuffixOf suffix.data s.data

/-- The `data_type` dispatch of `upload_data`: run the matching per-kind
loop over the corresponding table (an unrecognized kind matches no
branch and leaves `records_count = 0`), returning the updated store and the
row count. -/
def dispatchImport (now : ℤ) (data_type : String) (rows : List Row)
    (db : Store) : Except PyErr (Store × ℕ) :=
  if data_type = "batch" then
    match importRows batchKind now rows 0 db.batches with
    | .error e => .error e
    | .ok (t, n) => .ok ({ db with batches := t }, n)
  else if data_type = "qc" then
    match importQC now rows 0 db.qcs with
    | .error e => .error e
    | .ok (t, n) => .ok ({ db with qcs := t }, n)
  else if data_type = "complaint" then
    match importRows complaintKind now rows 0 db.complaints with
    | .error e => .error e
    | .ok (t, n) => .ok ({ db with complaints := t }, n)
  else if data_type = "capa" then
    match importRows capaKind now rows 0 db.capas with
    | .error e => .error e
    | .ok (t, n) => .ok ({ db with capas := t }, n)
  else if data_type = "equipment" then
    match importRows equipmentKind now rows 0 db.equipment with
    | .error e => .error e
    | .ok (t, n) => .ok ({ db with equipment := t }, n)
  else .ok (db, 0)

/-- `upload_data`: reject non-`.csv` filenames with HTTP 400 before parsing;
dispatch on the declared `data_type`; then stage one `UploadedFile` audit
record and `db.commit()` everything in one transaction.  A `.ok` result is
the committed store; a `.error` result means the exception escaped before
the commit, so nothing from the call persists. -/
def uploadData (now : ℤ) (filename data_type : String) (rows : List Row)
    (db : Store) : Except PyErr (Store × UploadResponse) :=
  if ¬ endsWithPy filename ".csv" then .error .http400
  else
    match dispatchImport now data_type rows db with
    | .error e => .error e
    | .ok (db1, n) =>
      .ok ({ db1 with
              uploads := db1.uploads ++ [⟨filename, data_type, n⟩] },
           ⟨filename, n, data_type⟩)

/-! ## The trend analyzer (`analyze_trends` in `gemini_service.py`) -/

/-- A stored batch row (the trend analyzer reads the table the importer
writes). -/
abbrev Batch := Entry BatchFields

/-- The numeric batch fields the router's allow-list admits as the `parameter`
argument of `analyze_trends`. -/
inductive Param where
  | hardness
  | yield_percent
  | compression_force
  | weight
  | thickness
deriving DecidableEq, Repr

/-- `getattr(b, parameter, None)` for an allow-listed parameter. -/
def getParam : Param → Batch → Option ℚ
  | .hardness, b => b.fields.hardness
  | .yield_percent, b => b.fields.yield_percent
  | .compression_force, b => b.fields.compression_force
  | .weight, b => b.fields.weight
  | .thickness, b => b.fields.thickness

/-- `max(b.manufacturing_date for b in batches if b.manufacturing_date)`:
`none` when the generator is empty, in which case Python `max` raises
`ValueError`. -/
def maxMfgDate (batches : List Batch) : Option ℤ :=
  (batches.filterMap (fun b => b.fields.manufacturing_date)).max?

/-- The window filter of `analyze_trends`: batches with a non-null
`manufacturing_date` at or after `cutoff = max_date - timedelta(days=days)`.
Empty when no batch has a date (the analyzer raises before filtering then). -/
def trendFiltered (batches : List Batch) (days : ℤ) : List Batch :=
  match maxMfgDate batches with
  | none => []
  | some maxDate =>
    batches.filter (fun b =>
      match b.fields.manufacturing_date with
      | some d => decide (maxDate - days ≤ d)
      | none => false)

/-- The qualifying values: non-null `parameter` values of the filtered
batches, in the date order of the underlying query. -/
def trendValues (p : Param) (batches : List Batch) (days : ℤ) : List ℚ :=
  (trendFiltered batches days).filterMap (getParam p)

/-- Lines 185–198 of `gemini_service.py`: the two-halves classifier.  Returns
`(trend_direction, alert)`; the pre-set defaults `("stable", False)` stand
whenever fewer than 5 values exist.  The percent change is guarded:
`... if first_avg else 0`. -/
def classifyTrend (values : List ℚ) : String × Bool :=
  if 5 ≤ values.length then
    let mid := values.length / 2
    let first_avg : ℚ := (values.take mid).sum / (mid : ℚ)
    let last_avg : ℚ := (values.drop mid).sum / ((values.length - mid : ℕ) : ℚ)
    let change : ℚ := if first_avg = 0 then 0 else (last_avg - first_avg) / first_avg * 100
    if 5 < change then ("hausse", true)
    else if change < -5 then ("baisse", true)
    else ("stable", false)
  else ("stable", false)

/-- Result of `analyze_trends`: either an escaped exception, the
`{"error": msg, "dates": [], "values": []}` shape (its `dates` and `values`
are the empty lists by construction), or the full trend dictionary. -/
inductive TrendResult where
  | exn
  | noData (msg : String)
  | trend (dates : List ℤ) (values : List ℚ) (parameter : Param)
      (trend_direction : String) (alert : Bool)
      (average min max : ℚ) (count : ℕ)
deriving DecidableEq, Repr

/-- `analyze_trends(db, parameter, days)` over the batch table sorted by
`manufacturing_date` (the `batches` argument is the query result). -/
def analyzeTrends (batches : List Batch) (parameter : Param) (days : ℤ) :
    TrendResult :=
  if batches.isEmpty then .noData "Pas assez de données"
  else
    match maxMfgDate batches with
    | none => .exn
    | some _ =>
      let filtered := trendFiltered batches days
      if filtered.length < 2 then .noData "Pas assez de données pour cette période"
      else
        let values := filtered.filterMap (getParam parameter)
        let dates := (filtered.filter (fun b => (getParam parameter b).isSome)).filterMap
          (fun b => b.fields.manufacturing_date)
        if values.length < 2 then .noData "Pas assez de données"
        else
          let c := classifyTrend values
          .trend dates values parameter c.1 c.2
            (pyRound (values.sum / (values.length : ℚ)) 2)
            (pyRound ((values.min?).getD 0) 2)
            (pyRound ((values.max?).getD 0) 2)
            values.length

/-! ## The stats aggregator (`get_full_stats` in `gemini_service.py`)

`get_full_stats` reads several attributes that `models.py` does not declare
on the queried classes (`QCResult.assay_percent`, `QCResult.dissolution_mean`,
`Batch.tablet_press_id`, `Equipment.result`).  Normal Python attribute lookup
on such an instance raises `AttributeError`, so those accesses are embedded
through explicit name-indexed lookup functions below.  (`id`/`created_at`
exist in the schema but are storage bookkeeping that the embedded paths never
read, so the lookup functions omit them.) -/

/-- A Python attribute value as read off a stored record. -/
inductive PyVal where
  | vfloat (x : Option ℚ)
  | vcell (x : Cell)
  | vdate (x : Option ℤ)
  | vocell (x : Option Cell)
deriving DecidableEq, Repr

/-- Attribute lookup on a stored `QCResult` (declared columns of
`models.QCResult`; anything else raises `AttributeError`). -/
def qcGetAttr (q : QCRec) : String → Except PyErr PyVal
  | "batch_id" => .ok (.vocell q.batch_id)
  | "test_date" => .ok (.vdate q.test_date)
  | "dissolution" => .ok (.vfloat q.dissolution)
  | "assay" => .ok (.vfloat q.assay)
  | "hardness" => .ok (.vfloat q.hardness)
  | "friability" => .ok (.vfloat q.friability)
  | "disintegration" => .ok (.vfloat q.disintegration)
  | "uniformity" => .ok (.vfloat q.uniformity)
  | "result" => .ok (.vcell q.result)
  | _ => .error .attributeError

/-- Attribute lookup on a stored `Batch` (declared columns of
`models.Batch`). -/
def batchGetAttr (b : Batch) : String → Except PyErr PyVal
  | "batch_id" => .ok (.vcell b.key)
  | "product_name" => .ok (.vcell b.fields.product_name)
  | "manufacturing_date" => .ok (.vdate b.fields.manufacturing_date)
  | "machine" => .ok (.vcell b.fields.machine)
  | "operator" => .ok (.vcell b.fields.operator)
  | "compression_force" => .ok (.vfloat b.fields.compression_force)
  | "hardness" => .ok (.vfloat b.fields.hardness)
  | "weight" => .ok (.vfloat b.fields.weight)
  | "thickness" => .ok (.vfloat b.fields.thickness)
  | "yield_percent" => .ok (.vfloat b.fields.yield_percent)
  | "status" => .ok (.vcell b.fields.status)
  | _ => .error .attributeError

/-- Attribute lookup on a stored `Equipment` (declared columns of
`models.Equipment`). -/
def equipmentGetAttr (e : Entry EquipmentFields) : String → Except PyErr PyVal
  | "equipment_id" => .ok (.vcell e.key)
  | "name" => .ok (.vcell e.fields.name)
  | "calibration_date" => .ok (.vdate e.fields.calibration_date)
  | "next_calibration" => .ok (.vdate e.fields.next_calibration)
  | "status" => .ok (.vcell e.fields.status)
  | "parameter" => .ok (.vcell e.fields.parameter)
  | "deviation" => .ok (.vfloat e.fields.deviation)
  | _ => .error .attributeError

/-- `len([q for q in qc_results if q.assay_percent and q.dissolution_mean and
95 <= q.assay_percent <= 105 and q.dissolution_mean >= 80])`.  The membership
test dereferences `q.assay_percent` first; `models.QCResult` declares
`assay`/`dissolution` but no `assay_percent`/`dissolution_mean`, so the test
raises `AttributeError` on every row and the comprehension only completes on
an empty table (yielding 0).  The threshold comparison is therefore dead code
here; `specQcPassRate` below states it as the spec words it. -/
def qcPassCount (qcs : List QCRec) : Except PyErr ℕ :=
  match qcs.mapM (fun q => qcGetAttr q "assay_percent") with
  | .error e => .error e
  | .ok _ => .ok 0

/-- Python truthiness of a stored value (`None`, `0` and `""` are falsy). -/
def cellTruthy : Cell → Bool
  | .num q => decide (q ≠ 0)
  | .dateStr _ s => decide (s ≠ "")
  | .rawStr s => decide (s ≠ "")
  | .nan => true
  | .dt _ => true

/-- `cell.lower()`: only string cells have `.lower`. -/
def cellLower : Cell → Except PyErr String
  | .rawStr s => .ok s.toLower
  | .dateStr _ s => .ok s.toLower
  | _ => .error .attributeError

/-- Substring test (`pat in s`). -/
def containsSub (s pat : String) : Bool :=
  (s.splitOn pat).length ≠ 1

/-- `c.status and c.status.lower() == "open"`. -/
def openStatusTest (c : Cell) : Except PyErr Bool :=
  if cellTruthy c then
    match cellLower c with
    | .error e => .error e
    | .ok s => .ok (s = "open")
  else .ok false

/-- `c.status and "closed" not in c.status.lower()`. -/
def capaOpenTest (c : Cell) : Except PyErr Bool :=
  if cellTruthy c then
    match cellLower c with
    | .error e => .error e
    | .ok s => .ok (!containsSub s "closed")
  else .ok false

/-- `len([e for e in equipment if e.result == "Fail"])`.  `models.Equipment`
declares no `result` column, so the test raises `AttributeError` on every
row; only the empty table completes (count 0). -/
def equipmentDueCount (eqs : List (Entry EquipmentFields)) : Except PyErr ℕ :=
  match eqs.mapM (fun e => equipmentGetAttr e "result") with
  | .error e => .error e
  | .ok vs => .ok ((vs.filter (fun v => decide (v = .vcell (.rawStr "Fail")))).length)

/-- The `avg_hardness` entry of the stats dict:
`round(sum(b.hardness for b in batches if b.hardness) /
max(len([b for b in batches if b.hardness]), 1), 2) if batches else 0`.
The `if b.hardness` filter is Python truthiness: it keeps values that are
non-null AND non-zero. -/
def avg_hardness (batches : List Batch) : ℚ :=
  if batches.isEmpty then 0
  else
    let contrib := (batches.filterMap (fun b => b.fields.hardness)).filter
      (fun q => decide (q ≠ 0))
    pyRound (contrib.sum / (max contrib.length 1 : ℕ)) 2

/-- The `avg_yield` entry, same shape over `b.yield_percent`. -/
def avg_yield (batches : List Batch) : ℚ :=
  if batches.isEmpty then 0
  else
    let contrib := (batches.filterMap (fun b => b.fields.yield_percent)).filter
      (fun q => decide (q ≠ 0))
    pyRound (contrib.sum / (max contrib.length 1 : ℕ)) 2

/-- The scalar entries of the `get_full_stats` dictionary (the `machines` and
`complaints_by_category` groupings are elided: for a non-empty batch table
the machines loop dies on `b.tablet_press_id` before either is observable,
and no claim mentions their contents). -/
structure StatsV where
  total_batches : ℕ
  avg_hardness : ℚ
  avg_yield : ℚ
  qc_pass_rate : ℚ
  complaints_open : ℕ
  capas_open : ℕ
  equipment_due : ℕ
deriving DecidableEq, Repr

/-- Count the elements for which an `Except`-valued test returns `true`,
propagating the first exception (a Python list comprehension with a fallible
condition). -/
def countM {α : Type} (test : α → Except PyErr Bool) :
    List α → Except PyErr ℕ
  | [] => .ok 0
  | a :: as =>
    match test a with
    | .error e => .error e
    | .ok b =>
      match countM test as with
      | .error e => .error e
      | .ok n => .ok (if b then n + 1 else n)

/-- `get_full_stats(db)`, in source evaluation order: the QC pass-count
comprehension runs first, then the stats dict entries in literal order
(`complaints_open`, `capas_open`, `equipment_due` each evaluate a fallible
comprehension), then the per-machine loop dereferences `b.tablet_press_id`
(undeclared on `models.Batch`) for each batch. -/
def getFullStats (db : Store) : Except PyErr StatsV :=
  match qcPassCount db.qcs with
  | .error e => .error e
  | .ok pc =>
    match countM (fun c => openStatusTest c.fields.status) db.complaints with
    | .error e => .error e
    | .ok co =>
      match countM (fun c => capaOpenTest c.fields.status) db.capas with
      | .error e => .error e
      | .ok ko =>
        match equipmentDueCount db.equipment with
        | .error e => .error e
        | .ok ed =>
          match db.batches.mapM (fun b => batchGetAttr b "tablet_press_id") with
          | .error e => .error e
          | .ok _ =>
            .ok { total_batches := db.batches.length
                  avg_hardness := avg_hardness db.batches
                  avg_yield := avg_yield db.batches
                  qc_pass_rate :=
                    if db.qcs.isEmpty then 0
                    else pyRound ((pc : ℚ) / (max db.qcs.length 1 : ℕ) * 100) 1
                  complaints_open := co
                  capas_open := ko
                  equipment_due := ed }

/-- Modelled from the spec (§4.3, testable property "QC pass-rate"): the rate
the aggregator is specified to report — `100 ·
|{rows : assay ∈ [95,105] ∧ dissolution ≥ 80}| / |rows|`, rounded to one
decimal — stated over the columns `models.py` actually declares.  This is the
spec-side definition used to compare against the crashing code path. -/
def specQcPassRate (qcs : List QCRec) : ℚ :=
  if qcs.isEmpty then 0
  else
    let pass := qcs.filter (fun q =>
      match q.assay, q.dissolution with
      | some a, some d => decide (95 ≤ a ∧ a ≤ 105 ∧ 80 ≤ d)
      | _, _ => false)
    pyRound ((pass.length : ℚ) / (qcs.length : ℚ) * 100) 1

/-! ## Observation helpers on upserted tables -/

/-- `db.query(...).filter(key == kid).first()`: the first stored record with
natural key `kid`. -/
def findEntry {F : Type} (store : List (Entry F)) (kid : Cell) : Option (Entry F) :=
  store.find? (fun e => decide (e.key = kid))

/-- Number of stored records with natural key `kid`. -/
def countKey {F : Type} (store : List (Entry F)) (kid : Cell) : ℕ :=
  (store.filter (fun e => decide (e.key = kid))).length

/-- The key a row carries in its natural-key column (with a dummy default;
every use below hypothesizes that the column is present). -/
def rkeyD {F : Type} (k : UpsertKind F) (row : Row) : Cell :=
  (getCell row k.keyCol).getD (.rawStr "")

/-- The parsed fields of a row, defaulting on (hypothetically excluded)
parse failure; when `k.parseF now row = .ok f` this is `f`. -/
def pv {F : Type} [Inhabited F] (k : UpsertKind F) (now : ℤ) (row : Row) : F :=
  match k.parseF now row with
  | .ok f => f
  | .error _ => default

/-- One successful upsert step of the import loop, for rows that carry their
key column. -/
def importStep {F : Type} [Inhabited F] (k : UpsertKind F) (now : ℤ)
    (store : List (Entry F)) (row : Row) : List (Entry F) :=
  upsertEntry store (rkeyD k row) (pv k now row)

/-- The last row of the file carrying natural key `kid` (the row whose values
win the upsert). -/
def lastKeyRow {F : Type} (k : UpsertKind F) (rows : List Row) (kid : Cell) :
    Option Row :=
  (rows.filter (fun r => decide (rkeyD k r = kid))).getLast?

/-! ## Concrete fixtures used by witnesses and counterexamples -/

/-- A batch row fixture: timestamped batch with the given hardness value. -/
def mkBatch (d : Option ℤ) (h : Option ℚ) : Batch :=
  ⟨.rawStr "B", { product_name := .rawStr "Paracetamol 500mg",
                  manufacturing_date := d, machine := .rawStr "Press-A",
                  operator := .rawStr "Op", compression_force := some 10,
                  hardness := h, weight := some 1, thickness := some 1,
                  yield_percent := some 98, status := .rawStr "released" }⟩

/-- A batch fixture varying the yield instead of the hardness. -/
def mkBatchY (d : Option ℤ) (y : Option ℚ) : Batch :=
  ⟨.rawStr "B", { (mkBatch d (some 5)).fields with yield_percent := y }⟩

/-- A QC row fixture with the given assay and dissolution. -/
def mkQC (a d : ℚ) : QCRec :=
  { batch_id := none, test_date := some 0, dissolution := some d,
    assay := some a, hardness := some 5, friability := some 1,
    disintegration := some 1, uniformity := some 1, result := .rawStr "pass" }

/-- An empty store. -/
def emptyStore : Store := ⟨[], [], [], [], [], []⟩

/-- Store holding four QC rows of which exactly two (assay 100/dissolution 90
and 100/85) satisfy the spec thresholds. -/
def qcStore4 : Store :=
  { emptyStore with qcs := [mkQC 100 90, mkQC 100 85, mkQC 110 90, mkQC 100 70] }

/-- A one-row batch CSV whose only cells are the natural key and a hardness
of 5. -/
def wRow : Row := [("batch_id", .rawStr "B1"), ("hardness", .num 5)]

/-- A batch CSV row whose hardness cell is a string `float()` rejects. -/
def badRow : Row := [("batch_id", .rawStr "B1"), ("hardness", .rawStr "abc")]

/-- The batch table after importing `[wRow]` into an empty store at `now = 0`:
all absent columns fall back to the importer's hard-coded defaults. -/
def wStore1 : List (Entry BatchFields) :=
  [⟨.rawStr "B1",
    { product_name := .rawStr "Paracetamol 500mg", manufacturing_date := some 0,
      machine := .rawStr "Unknown", operator := .rawStr "Unknown",
      compression_force := some 0, hardness := some 5, weight := some 0,
      thickness := some 0, yield_percent := some 98,
      status := .rawStr "released" }⟩]

/-- The parsed `QCResult` of a row, defaulting on (hypothetically excluded)
parse failure; when `parseQCRow now row = .ok q` this is `q`. -/
def pvQC (now : ℤ) (row : Row) : QCRec :=
  match parseQCRow now row with
  | .ok q => q
  | .error _ => default

/-- The percent change exactly as the spec words it (`(last_avg - first_avg)
/ first_avg * 100`, no zero guard).  Over `ℚ`, division by zero yields 0, so
this coincides with the code's guarded expression in every case. -/
def claimChange (values : List ℚ) : ℚ :=
  let mid := values.length / 2
  let first_avg : ℚ := (values.take mid).sum / (mid : ℚ)
  let last_avg : ℚ := (values.drop mid).sum / ((values.length - mid : ℕ) : ℚ)
  (last_avg - first_avg) / first_avg * 100

/-- The mean hardness as the claim words it: denominator = count of rows
whose hardness is NON-NULL (a non-null 0 contributes).  Stated only to be
compared against the code's `avg_hardness`, whose truthiness filter also
drops zeros. -/
def claimAvgHardness (batches : List Batch) : ℚ :=
  if batches.isEmpty then 0
  else
    let contrib := batches.filterMap (fun b => b.fields.hardness)
    pyRound (contrib.sum / (max contrib.length 1 : ℕ)) 2

/-- Columns of a batch row that the importer coerces with `float()`. -/
def batchFloatCols : List String :=
  ["compression_force", "main_compression_force", "hardness",
   "ipc_hardness_mean", "weight", "ipc_weight_mean", "thickness",
   "ipc_thickness_mean", "yield_percent", "yield_percentage"]

/-- `float(cell)` succeeds on this cell. -/
def floatOk (c : Cell) : Bool :=
  match pyFloat c with
  | .ok _ => true
  | .error _ => false

/-- `pd.to_datetime(cell)` succeeds on this cell. -/
def dateOk (c : Cell) : Bool :=
  match toDatetime c with
  | .ok _ => true
  | .error _ => false

/-- Every numeric-alias cell the batch row provides is `float()`-safe and
its date cell (if any) parses; absent columns impose nothing — their
defaults take over. -/
def BatchRowSafe (row : Row) : Prop :=
  (∀ col ∈ batchFloatCols, ∀ cell, getCell row col = some cell →
    floatOk cell = true) ∧
  (∀ cell, getCell row "manufacturing_date" = some cell → dateOk cell = true)

/-- A batch CSV row providing only the natural key: every numeric and date
column is absent. -/
def keyOnlyRow : Row := [("batch_id", .rawStr "B1")]

/-! ## Lemmas about the upsert loop -/

theorem findEntry_cons {F : Type} (e : Entry F) (es : List (Entry F)) (kid : Cell) :
    findEntry (e :: es) kid = if e.key = kid then some e else findEntry es kid := by
  simp only [findEntry, List.find?]
  by_cases h : e.key = kid <;> simp [h]

theorem countKey_cons {F : Type} (e : Entry F) (es : List (Entry F)) (kid : Cell) :
    countKey (e :: es) kid =
      (if e.key = kid then 1 else 0) + countKey es kid := by
  simp only [countKey, List.filter]
  by_cases h : e.key = kid <;> simp [h, Nat.add_comm]

theorem upsertEntry_find_self {F : Type} (s : List (Entry F)) (kid : Cell) (f : F) :
    findEntry (upsertEntry s kid f) kid = some ⟨kid, f⟩ := by
  induction s with
  | nil => simp [upsertEntry, findEntry_cons]
  | cons e es ih =>
    by_cases h : e.key = kid
    · simp [upsertEntry, h, findEntry_cons]
    · simp [upsertEntry, h, findEntry_cons, ih]

theorem upsertEntry_find_other {F : Type} (s : List (Entry F)) (kid kid' : Cell)
    (f : F) (h : kid' ≠ kid) :
    findEntry (upsertEntry s kid f) kid' = findEntry s kid' := by
  induction s with
  | nil => simp [upsertEntry, findEntry_cons, findEntry, Ne.symm h]
  | cons e es ih =>
    by_cases he : e.key = kid
    · simp [upsertEntry, he, findEntry_cons, Ne.symm h]
    · simp [upsertEntry, he, findEntry_cons, ih]

theorem upsertEntry_count_self {F : Type} (s : List (Entry F)) (kid : Cell) (f : F) :
    countKey (upsertEntry s kid f) kid = max (countKey s kid) 1 := by
  induction s with
  | nil => simp [upsertEntry, countKey_cons, countKey]
  | cons e es ih =>
    by_cases h : e.key = kid
    · simp [upsertEntry, h, countKey_cons]
    · simp [upsertEntry, h, countKey_cons, ih]

theorem upsertEntry_count_other {F : Type} (s : List (Entry F)) (kid kid' : Cell)
    (f : F) (h : kid' ≠ kid) :
    countKey (upsertEntry s kid f) kid' = countKey s kid' := by
  induction s with
  | nil => simp [upsertEntry, countKey_cons, countKey, Ne.symm h]
  | cons e es ih =>
    by_cases he : e.key = kid
    · simp [upsertEntry, he, countKey_cons, Ne.symm h]
    · simp [upsertEntry, he, countKey_cons, ih]

theorem countKey_pos_of_find {F : Type} (s : List (Entry F)) (kid : Cell)
    (e : Entry F) (h : findEntry s kid = some e) : 1 ≤ countKey s kid := by
  induction s with
  | nil => simp [findEntry] at h
  | cons a as ih =>
    rw [findEntry_cons] at h
    rw [countKey_cons]
    by_cases ha : a.key = kid
    · simp [ha]
    · simp only [if_neg ha] at h ⊢
      simpa using ih h

theorem keyOf_eq_rkeyD {F : Type} (k : UpsertKind F) (row : Row) (n : ℕ)
    (h : (getCell row k.keyCol).isSome) : keyOf k row n = rkeyD k row := by
  rcases Option.isSome_iff_exists.mp h with ⟨c, hc⟩
  simp [keyOf, rkeyD, get1, hc]

theorem importRows_parses {F : Type} [Inhabited F] (k : UpsertKind F) (now : ℤ) :
    ∀ (rows : List Row) (n : ℕ) (store store' : List (Entry F)) (n' : ℕ),
      importRows k now rows n store = .ok (store', n') →
      ∀ row ∈ rows, k.parseF now row = .ok (pv k now row) := by
  intro rows
  induction rows with
  | nil => intro _ _ _ _ _ row hrow; simp at hrow
  | cons r rs ih =>
    intro n store store' n' h row hrow
    rw [importRows] at h
    rcases hp : k.parseF now r with e | f
    · rw [hp] at h; exact absurd h (by simp)
    · rw [hp] at h
      rcases List.mem_cons.mp hrow with rfl | hmem
      · rw [hp, pv, hp]
      · exact ih _ _ _ _ h row hmem

theorem importRows_ok_keyed {F : Type} [Inhabited F] (k : UpsertKind F) (now : ℤ) :
    ∀ (rows : List Row),
      (∀ row ∈ rows, (getCell row k.keyCol).isSome) →
      (∀ row ∈ rows, k.parseF now row = .ok (pv k now row)) →
      ∀ (n : ℕ) (store : List (Entry F)),
        importRows k now rows n store =
          .ok (rows.foldl (importStep k now) store, n + rows.length) := by
  intro rows
  induction rows with
  | nil => intro _ _ n store; simp [importRows]
  | cons r rs ih =>
    intro hkeys hp n store
    simp only [importRows, hp r (by simp), keyOf_eq_rkeyD k r n (hkeys r (by simp))]
    rw [ih (fun row hr => hkeys row (by simp [hr]))
      (fun row hr => hp row (by simp [hr])) (n + 1) _]
    simp only [List.foldl_cons, importStep, List.length_cons]
    congr 2
    omega

theorem importRows_exists_ok {F : Type} [Inhabited F] (k : UpsertKind F) (now : ℤ) :
    ∀ (rows : List Row),
      (∀ row ∈ rows, ∃ f, k.parseF now row = .ok f) →
      ∀ (n : ℕ) (store : List (Entry F)),
        ∃ store', importRows k now rows n store = .ok (store', n + rows.length) := by
  intro rows
  induction rows with
  | nil => intro _ n store; exact ⟨store, by simp [importRows]⟩
  | cons r rs ih =>
    intro hp n store
    rcases hp r (by simp) with ⟨f, hf⟩
    rcases ih (fun row hr => hp row (by simp [hr])) (n + 1)
      (upsertEntry store (keyOf k r n) f) with ⟨store', hs⟩
    refine ⟨store', ?_⟩
    simp only [importRows, hf]
    rw [hs]
    congr 2
    simp only [List.length_cons]
    omega

theorem getLast?_cons_of_ne_nil {α : Type} (a : α) (l : List α) (h : l ≠ []) :
    (a :: l).getLast? = l.getLast? := by
  cases l with
  | nil => exact absurd rfl h
  | cons b bs => simp [List.getLast?_cons_cons]

theorem foldl_importStep_find {F : Type} [Inhabited F] (k : UpsertKind F) (now : ℤ) :
    ∀ (rows : List Row) (store : List (Entry F)) (kid : Cell),
      findEntry (rows.foldl (importStep k now) store) kid =
        match lastKeyRow k rows kid with
        | some lrow => some ⟨kid, pv k now lrow⟩
        | none => findEntry store kid := by
  intro rows
  induction rows with
  | nil => intro store kid; simp [lastKeyRow]
  | cons r rs ih =>
    intro store kid
    rw [List.foldl_cons, ih]
    rcases hlast : lastKeyRow k rs kid with _ | lrow
    · have hnil : rs.filter (fun r => decide (rkeyD k r = kid)) = [] := by
        rw [lastKeyRow] at hlast
        exact List.getLast?_eq_none_iff.mp hlast
      by_cases hr : rkeyD k r = kid
      · have hfil : lastKeyRow k (r :: rs) kid = some r := by
          simp [lastKeyRow, List.filter_cons, hr, hnil]
        rw [hfil]
        simp only []
        subst hr
        exact upsertEntry_find_self store (rkeyD k r) (pv k now r)
      · have hfil : lastKeyRow k (r :: rs) kid = none := by
          simp [lastKeyRow, List.filter_cons, hr, hnil]
        rw [hfil]
        simp only []
        exact upsertEntry_find_other store (rkeyD k r) kid (pv k now r) (Ne.symm hr)
    · have hne : rs.filter (fun r => decide (rkeyD k r = kid)) ≠ [] := by
        intro hnil
        rw [lastKeyRow, hnil] at hlast
        simp at hlast
      have hgoal : lastKeyRow k (r :: rs) kid = some lrow := by
        rw [lastKeyRow, List.filter_cons]
        by_cases hr : rkeyD k r = kid
        · rw [if_pos (by simp [hr])]
          rw [getLast?_cons_of_ne_nil _ _ hne]
          exact hlast
        · rw [if_neg (by simp [hr])]
          exact hlast
      rw [hgoal]

theorem foldl_importStep_count_le {F : Type} [Inhabited F] (k : UpsertKind F)
    (now : ℤ) :
    ∀ (rows : List Row) (store : List (Entry F)) (kid : Cell),
      countKey store kid ≤ 1 →
      countKey (rows.foldl (importStep k now) store) kid ≤ 1 := by
  intro rows
  induction rows with
  | nil => intro store kid h; simpa using h
  | cons r rs ih =>
    intro store kid h
    rw [List.foldl_cons]
    refine ih _ kid ?_
    rw [importStep]
    by_cases hr : rkeyD k r = kid
    · subst hr
      rw [upsertEntry_count_self]
      omega
    · rw [upsertEntry_count_other store (rkeyD k r) kid _ (Ne.symm hr)]
      exact h

/-! ## Claim theorems -/

/-- C3.  For every upserted kind (batch, complaint, CAPA, equipment — the
four `UpsertKind` instances of `upload_data`), a file whose rows all carry
the natural-key column, imported twice into a key-unique store (with the
first import succeeding), leaves exactly one stored record per natural key
occurring in the file, and that record's mapped fields are the parsed values
of the (last) file row with that key — i.e. the values of the second import. -/
theorem upsert_import_idempotent {F : Type} [Inhabited F] (k : UpsertKind F)
    (now : ℤ) (rows : List Row) (store0 store1 : List (Entry F)) (n1 : ℕ)
    (hkeys : ∀ row ∈ rows, (getCell row k.keyCol).isSome)
    (huniq : ∀ kid : Cell, countKey store0 kid ≤ 1)
    (h1 : importRows k now rows 0 store0 = .ok (store1, n1)) :
    ∃ store2, importRows k now rows 0 store1 = .ok (store2, rows.length) ∧
      ∀ row ∈ rows, ∀ kid : Cell, getCell row k.keyCol = some kid →
        countKey store2 kid = 1 ∧
        ∃ lrow f, lastKeyRow k rows kid = some lrow ∧
          k.parseF now lrow = .ok f ∧
          findEntry store2 kid = some ⟨kid, f⟩ := by
  have hp := importRows_parses k now rows 0 store0 store1 n1 h1
  have hrun1 := importRows_ok_keyed k now rows hkeys hp 0 store0
  have hst1 : store1 = rows.foldl (importStep k now) store0 := by
    rw [h1] at hrun1
    exact congrArg Prod.fst (Except.ok.inj hrun1)
  have hrun2 := importRows_ok_keyed k now rows hkeys hp 0 store1
  refine ⟨rows.foldl (importStep k now) store1, by simpa using hrun2, ?_⟩
  intro row hrow kid hkid
  have hrk : rkeyD k row = kid := by simp [rkeyD, hkid]
  have hmemf : row ∈ rows.filter (fun r => decide (rkeyD k r = kid)) :=
    List.mem_filter.mpr ⟨hrow, by simp [hrk]⟩
  have hne : rows.filter (fun r => decide (rkeyD k r = kid)) ≠ [] := by
    intro h0
    rw [h0] at hmemf
    simp at hmemf
  have hlast : lastKeyRow k rows kid =
      some ((rows.filter (fun r => decide (rkeyD k r = kid))).getLast hne) :=
    List.getLast?_eq_getLast_of_ne_nil hne
  set lrow := (rows.filter (fun r => decide (rkeyD k r = kid))).getLast hne with hlrow
  have hlmem : lrow ∈ rows :=
    (List.mem_filter.mp (List.getLast_mem hne)).1
  have hfind : findEntry (rows.foldl (importStep k now) store1) kid =
      some ⟨kid, pv k now lrow⟩ := by
    rw [foldl_importStep_find k now rows store1 kid, hlast]
  refine ⟨?_, lrow, pv k now lrow, hlast, hp lrow hlmem, hfind⟩
  have hle : countKey (rows.foldl (importStep k now) store1) kid ≤ 1 := by
    refine foldl_importStep_count_le k now rows store1 kid ?_
    rw [hst1]
    exact foldl_importStep_count_le k now rows store0 kid (huniq kid)
  have hge := countKey_pos_of_find _ kid _ hfind
  omega

/-- Witness for C3: a one-row batch file with key `"B1"` imported twice into
an empty store. -/
theorem upsert_import_idempotent_witness :
    (∀ row ∈ [wRow], (getCell row batchKind.keyCol).isSome) ∧
    importRows batchKind 0 [wRow] 0 ([] : List (Entry BatchFields)) =
      .ok (wStore1, 1) ∧
    ∃ store2, importRows batchKind 0 [wRow] 0 wStore1 = .ok (store2, [wRow].length) ∧
      ∀ row ∈ [wRow], ∀ kid : Cell, getCell row batchKind.keyCol = some kid →
        countKey store2 kid = 1 ∧
        ∃ lrow f, lastKeyRow batchKind [wRow] kid = some lrow ∧
          batchKind.parseF 0 lrow = .ok f ∧
          findEntry store2 kid = some ⟨kid, f⟩ :=
  ⟨by decide, by decide,
    upsert_import_idempotent batchKind 0 [wRow] [] wStore1 1 (by decide)
      (fun kid => by simp [countKey]) (by decide)⟩

theorem importQC_parses (now : ℤ) :
    ∀ (rows : List Row) (n : ℕ) (store store' : List QCRec) (n' : ℕ),
      importQC now rows n store = .ok (store', n') →
      ∀ row ∈ rows, parseQCRow now row = .ok (pvQC now row) := by
  intro rows
  induction rows with
  | nil => intro _ _ _ _ _ row hrow; simp at hrow
  | cons r rs ih =>
    intro n store store' n' h row hrow
    rw [importQC] at h
    rcases hp : parseQCRow now r with e | q
    · rw [hp] at h; exact absurd h (by simp)
    · rw [hp] at h
      rcases List.mem_cons.mp hrow with rfl | hmem
      · rw [hp, pvQC, hp]
      · exact ih _ _ _ _ h row hmem

theorem importQC_runs (now : ℤ) :
    ∀ (rows : List Row),
      (∀ row ∈ rows, parseQCRow now row = .ok (pvQC now row)) →
      ∀ (n : ℕ) (store : List QCRec),
        importQC now rows n store =
          .ok (store ++ rows.map (pvQC now), n + rows.length) := by
  intro rows
  induction rows with
  | nil => intro _ n store; simp [importQC]
  | cons r rs ih =>
    intro hp n store
    simp only [importQC, hp r (by simp)]
    rw [ih (fun row hr => hp row (by simp [hr])) (n + 1) (store ++ [pvQC now r])]
    simp only [List.map_cons, List.length_cons, List.append_assoc,
      List.singleton_append]
    congr 2
    omega

/-- C7.  The `data_type == "qc"` branch performs no key lookup: a successful
QC import appends one new `QCResult` per file row to the table (`n` rows in,
`n` records appended), so importing the same file twice appends `2n` records
— nothing is deduplicated by `(batch_id, test_date)` or anything else. -/
theorem qc_rows_always_inserted (now : ℤ) (rows : List Row)
    (store0 store1 : List QCRec) (n1 : ℕ)
    (h1 : importQC now rows 0 store0 = .ok (store1, n1)) :
    n1 = rows.length ∧
    store1 = store0 ++ rows.map (pvQC now) ∧
    importQC now rows 0 store1 = .ok (store1 ++ rows.map (pvQC now), rows.length) ∧
    (store1 ++ rows.map (pvQC now)).length = store0.length + 2 * rows.length := by
  have hp := importQC_parses now rows 0 store0 store1 n1 h1
  have hrun := importQC_runs now rows hp 0 store0
  rw [h1] at hrun
  have hpair := Except.ok.inj hrun
  have hs : store1 = store0 ++ rows.map (pvQC now) := congrArg Prod.fst hpair
  have hn : n1 = rows.length := by
    have := congrArg Prod.snd hpair
    simpa using this
  refine ⟨hn, hs, by simpa using importQC_runs now rows hp 0 store1, ?_⟩
  rw [hs]
  simp
  omega

theorem classifyTrend_of_lt (values : List ℚ) (h : values.length < 5) :
    classifyTrend values = ("stable", false) := by
  unfold classifyTrend
  rw [if_neg (by omega)]

theorem classifyTrend_of_ge (values : List ℚ) (h5 : 5 ≤ values.length) :
    classifyTrend values =
      if 5 < claimChange values then ("hausse", true)
      else if claimChange values < -5 then ("baisse", true)
      else ("stable", false) := by
  unfold classifyTrend claimChange
  rw [if_pos h5]
  simp only []
  by_cases hfa : (values.take (values.length / 2)).sum / ((values.length / 2 : ℕ) : ℚ) = 0
  · simp [hfa]
  · simp [hfa]

/-- C1.  The two-halves classifier of `analyze_trends`: with fewer than 5
qualifying values the pre-set `("stable", alert = false)` stands; with at
least 5 values, `mid = ⌊count/2⌋`, `first_avg` the mean of `values[0:mid]`,
`last_avg` the mean of `values[mid:count]` and `change = (last_avg -
first_avg) / first_avg * 100`, the result is `("hausse", true)` when
`change > 5`, `("baisse", true)` when `change < -5`, and `("stable", false)`
otherwise. -/
theorem trend_classification_correct (values : List ℚ) :
    (values.length < 5 → classifyTrend values = ("stable", false)) ∧
    (5 ≤ values.length →
      (5 < claimChange values → classifyTrend values = ("hausse", true)) ∧
      (claimChange values < -5 → classifyTrend values = ("baisse", true)) ∧
      (-5 ≤ claimChange values → claimChange values ≤ 5 →
        classifyTrend values = ("stable", false))) := by
  refine ⟨fun h => classifyTrend_of_lt values h, fun h5 => ?_⟩
  rw [classifyTrend_of_ge values h5]
  refine ⟨fun h => by rw [if_pos h], fun h => ?_, fun h1 h2 => ?_⟩
  · rw [if_neg (by linarith), if_pos h]
  · rw [if_neg (by linarith), if_neg (by linarith)]

/-- Witness for C1: the spec's three examples — first-half mean 100 and
second-half mean 106 is a `hausse` alert, 100 → 94 a `baisse` alert, and
100 → 102 stays `stable` — plus a 4-value series left at the default. -/
theorem trend_classification_correct_witness :
    (5 ≤ ([100, 100, 100, 106, 106, 106] : List ℚ).length ∧
      classifyTrend [100, 100, 100, 106, 106, 106] = ("hausse", true)) ∧
    (classifyTrend [100, 100, 100, 94, 94, 94] = ("baisse", true)) ∧
    (classifyTrend [100, 100, 100, 102, 102, 102] = ("stable", false)) ∧
    (classifyTrend [100, 100, 106, 106] = ("stable", false)) :=
  ⟨⟨by decide,
    ((trend_classification_correct [100, 100, 100, 106, 106, 106]).2
      (by decide)).1 (by norm_num [claimChange])⟩,
   ((trend_classification_correct [100, 100, 100, 94, 94, 94]).2
      (by decide)).2.1 (by norm_num [claimChange]),
   (((trend_classification_correct [100, 100, 100, 102, 102, 102]).2
      (by decide)).2.2 (by norm_num [claimChange]) (by norm_num [claimChange])),
   (trend_classification_correct [100, 100, 106, 106]).1 (by decide)⟩

/-- C8.  A qualifying series of at least 5 values whose first-half average is
0 hits the `... if first_avg else 0` guard: the change is 0 %, no
`ZeroDivisionError` is raised (the classifier is total), and the
classification stays `("stable", alert = false)`. -/
theorem zero_first_half_stable (values : List ℚ) (h5 : 5 ≤ values.length)
    (h0 : (values.take (values.length / 2)).sum / ((values.length / 2 : ℕ) : ℚ) = 0) :
    classifyTrend values = ("stable", false) := by
  have hcc : claimChange values = 0 := by
    unfold claimChange
    simp only []
    rw [h0]
    simp
  rw [classifyTrend_of_ge values h5, hcc]
  norm_num

/-- Witness for C8: `[1, -1, 0, 6, 6]` has first-half sum 0. -/
theorem zero_first_half_stable_witness :
    5 ≤ ([1, -1, 0, 6, 6] : List ℚ).length ∧
    (([1, -1, 0, 6, 6] : List ℚ).take (([1, -1, 0, 6, 6] : List ℚ).length / 2)).sum /
      ((([1, -1, 0, 6, 6] : List ℚ).length / 2 : ℕ) : ℚ) = 0 ∧
    classifyTrend [1, -1, 0, 6, 6] = ("stable", false) :=
  ⟨by decide, by norm_num,
    zero_first_half_stable [1, -1, 0, 6, 6] (by decide) (by norm_num)⟩

/-- Counterexample for C2: a store holding exactly one batch (so "fewer than
2 batch records exist") whose `manufacturing_date` is null makes
`analyze_trends` evaluate `max()` over an empty generator, which raises
`ValueError` — not the structured "not enough data" result the claim
demands. -/
theorem trend_all_null_dates_raise :
    analyzeTrends [mkBatch none (some 5)] Param.hardness 30 = TrendResult.exn := by
  decide

/-- C2 as amended.  Provided some batch carries a non-null
`manufacturing_date` (or the table is empty — the situation the claim missed
is a non-empty table whose dates are all null, where `max()` raises), each of
the three minimum-data gates returns the structured `noData` result, whose
`dates`/`values` arrays are empty by construction. -/
theorem trend_insufficient_data_gate (batches : List Batch) (p : Param) (days : ℤ)
    (hdates : batches = [] ∨ ∃ b ∈ batches, b.fields.manufacturing_date ≠ none)
    (hlt : batches.length < 2 ∨ (trendFiltered batches days).length < 2 ∨
      (trendValues p batches days).length < 2) :
    ∃ msg, analyzeTrends batches p days = TrendResult.noData msg := by
  unfold analyzeTrends
  by_cases hemp : batches.isEmpty
  · rw [if_pos hemp]
    exact ⟨_, rfl⟩
  · rw [if_neg hemp]
    have hne : batches ≠ [] := by simpa [List.isEmpty_iff] using hemp
    rcases hmax : maxMfgDate batches with _ | m
    · exfalso
      rcases hdates with rfl | ⟨b, hb, hbd⟩
      · exact hne rfl
      · unfold maxMfgDate at hmax
        rw [List.max?_eq_none_iff, List.filterMap_eq_nil_iff] at hmax
        exact hbd (hmax b hb)
    · simp only []
      by_cases hf2 : (trendFiltered batches days).length < 2
      · rw [if_pos hf2]
        exact ⟨_, rfl⟩
      · rw [if_neg hf2]
        have hv : ((trendFiltered batches days).filterMap (getParam p)).length < 2 := by
          rcases hlt with h | h | h
          · exfalso
            apply hf2
            have hle : (trendFiltered batches days).length ≤ batches.length := by
              unfold trendFiltered
              rw [hmax]
              exact List.length_filter_le _ _
            omega
          · exact absurd h hf2
          · exact h
        rw [if_pos hv]
        exact ⟨_, rfl⟩

/-- Witness for C2 (amended): a single dated batch trips the
window-filter gate. -/
theorem trend_insufficient_data_gate_witness :
    (([mkBatch (some 0) (some 5)] : List Batch) = [] ∨
      ∃ b ∈ ([mkBatch (some 0) (some 5)] : List Batch),
        b.fields.manufacturing_date ≠ none) ∧
    ([mkBatch (some 0) (some 5)] : List Batch).length < 2 ∧
    ∃ msg, analyzeTrends [mkBatch (some 0) (some 5)] Param.hardness 30 =
      TrendResult.noData msg :=
  ⟨Or.inr ⟨mkBatch (some 0) (some 5), by simp, by decide⟩, by decide,
    trend_insufficient_data_gate [mkBatch (some 0) (some 5)] Param.hardness 30
      (Or.inr ⟨mkBatch (some 0) (some 5), by simp, by decide⟩)
      (Or.inl (by decide))⟩

/-- C4 (code bug).  On a store with four QC rows of which exactly two meet
the spec thresholds, `get_full_stats` does not report the pass rate 50.0: its
pass-count comprehension dereferences `q.assay_percent`, which
`models.QCResult` does not declare (the schema names the columns
`assay`/`dissolution`), so the call raises `AttributeError`.  The spec-side
computation over the declared columns does yield 50.0. -/
theorem qc_pass_rate_attribute_error :
    getFullStats qcStore4 = .error .attributeError ∧
    specQcPassRate qcStore4.qcs = 50 ∧
    qcStore4.qcs.length = 4 := by
  refine ⟨by decide, ?_, by decide⟩
  norm_num [specQcPassRate, qcStore4, emptyStore, mkQC, pyRound, roundHalfEven,
    List.filter_cons, List.filterMap_cons]

theorem pyRound_zero (n : ℕ) : pyRound 0 n = 0 := by
  unfold pyRound roundHalfEven
  norm_num

/-- Counterexample for C5: two batches with hardness 0 and 10.  The claim
(zeros contribute, denominator = non-null count) predicts a mean of 5, but
the code's truthiness filter `if b.hardness` drops the 0 row from numerator
and denominator alike, reporting 10. -/
theorem avg_hardness_zero_not_counted :
    avg_hardness [mkBatch (some 0) (some 0), mkBatch (some 1) (some 10)] = 10 ∧
    claimAvgHardness [mkBatch (some 0) (some 0), mkBatch (some 1) (some 10)] = 5 ∧
    avg_hardness [mkBatch (some 0) (some 0), mkBatch (some 1) (some 10)] ≠
      claimAvgHardness [mkBatch (some 0) (some 0), mkBatch (some 1) (some 10)] := by
  have h1 : avg_hardness [mkBatch (some 0) (some 0), mkBatch (some 1) (some 10)] = 10 := by
    norm_num [avg_hardness, mkBatch, pyRound, roundHalfEven, List.filter_cons,
      List.filterMap_cons]
  have h2 : claimAvgHardness [mkBatch (some 0) (some 0), mkBatch (some 1) (some 10)] = 5 := by
    norm_num [claimAvgHardness, mkBatch, pyRound, roundHalfEven, List.filter_cons,
      List.filterMap_cons]
  refine ⟨h1, h2, ?_⟩
  rw [h1, h2]
  norm_num

/-- C5 as amended.  The `avg_hardness` / `avg_yield` entries of
`get_full_stats` average over the rows whose field is truthy — non-null AND
non-zero.  A batch whose hardness (resp. yield) is null or 0 contributes to
neither numerator nor denominator: prepending it leaves the reported mean
unchanged. -/
theorem stats_means_ignore_falsy (b : Batch) (batches : List Batch) :
    ((b.fields.hardness = none ∨ b.fields.hardness = some 0) →
      avg_hardness (b :: batches) = avg_hardness batches) ∧
    ((b.fields.yield_percent = none ∨ b.fields.yield_percent = some 0) →
      avg_yield (b :: batches) = avg_yield batches) := by
  constructor
  · intro h
    unfold avg_hardness
    cases batches with
    | nil =>
      rcases h with h | h <;>
        simp [h, List.filterMap_cons, pyRound_zero]
    | cons c cs =>
      rcases h with h | h <;> simp [h, List.filterMap_cons]
  · intro h
    unfold avg_yield
    cases batches with
    | nil =>
      rcases h with h | h <;>
        simp [h, List.filterMap_cons, pyRound_zero]
    | cons c cs =>
      rcases h with h | h <;> simp [h, List.filterMap_cons]

/-- Witness for C5 (amended): prepending a zero-hardness batch to a
one-batch table leaves `avg_hardness` at 10. -/
theorem stats_means_ignore_falsy_witness :
    (mkBatch (some 0) (some 0)).fields.hardness = some 0 ∧
    avg_hardness (mkBatch (some 0) (some 0) :: [mkBatch (some 1) (some 10)]) =
      avg_hardness [mkBatch (some 1) (some 10)] :=
  ⟨by decide,
    (stats_means_ignore_falsy (mkBatch (some 0) (some 0))
      [mkBatch (some 1) (some 10)]).1 (Or.inr (by decide))⟩

/-- Counterexample for C6: a batch row whose `hardness` cell is the string
`"abc"`.  `float("abc")` raises `ValueError`, which aborts the whole upload
before the commit — the claim's promise that a parse failure is absorbed by
the row-level default and still counted is false. -/
theorem unparseable_cell_aborts_import :
    uploadData 0 "f.csv" "batch" [badRow] emptyStore = .error .valueError := by
  decide

theorem exists_ok_of_floatOk (c : Cell) (h : floatOk c = true) :
    ∃ q, pyFloat c = .ok q := by
  unfold floatOk at h
  rcases hp : pyFloat c with e | q
  · rw [hp] at h; simp at h
  · exact ⟨q, rfl⟩

theorem exists_ok_of_dateOk (c : Cell) (h : dateOk c = true) :
    ∃ d, toDatetime c = .ok d := by
  unfold dateOk at h
  rcases hp : toDatetime c with e | d
  · rw [hp] at h; simp at h
  · exact ⟨d, rfl⟩

theorem pyFloat_get2_ok (row : Row) (a b : String) (d : ℚ)
    (ha : ∀ cell, getCell row a = some cell → floatOk cell = true)
    (hb : ∀ cell, getCell row b = some cell → floatOk cell = true) :
    ∃ q, pyFloat (get2 row a b (.num d)) = .ok q := by
  rcases hca : getCell row a with _ | ca
  · rcases hcb : getCell row b with _ | cb
    · exact ⟨some d, by simp [get2, get1, hca, hcb, pyFloat]⟩
    · obtain ⟨q, hq⟩ := exists_ok_of_floatOk cb (hb cb hcb)
      exact ⟨q, by simp [get2, get1, hca, hcb, hq]⟩
  · obtain ⟨q, hq⟩ := exists_ok_of_floatOk ca (ha ca hca)
    exact ⟨q, by simp [get2, hca, hq]⟩

theorem toDatetime_get1_ok (row : Row) (a : String) (now : ℤ)
    (ha : ∀ cell, getCell row a = some cell → dateOk cell = true) :
    ∃ x, toDatetime (get1 row a (.dt now)) = .ok x := by
  rcases hca : getCell row a with _ | ca
  · exact ⟨some now, by simp [get1, hca, toDatetime]⟩
  · obtain ⟨x, hx⟩ := exists_ok_of_dateOk ca (ha ca hca)
    exact ⟨x, by simp [get1, hca, hx]⟩

/-- A parse-safe batch row always parses, and when its hardness aliases are
absent the row-level default 0 takes over. -/
theorem parseBatchFields_safe (now : ℤ) (row : Row) (h : BatchRowSafe row) :
    ∃ f, parseBatchFields now row = .ok f ∧
      (getCell row "hardness" = none → getCell row "ipc_hardness_mean" = none →
        f.hardness = some 0) := by
  have hmem : ∀ c ∈ batchFloatCols,
      ∀ cell, getCell row c = some cell → floatOk cell = true := h.1
  obtain ⟨md, hmd⟩ := toDatetime_get1_ok row "manufacturing_date" now h.2
  obtain ⟨cf, hcf⟩ := pyFloat_get2_ok row "compression_force"
    "main_compression_force" 0 (hmem _ (by simp [batchFloatCols]))
    (hmem _ (by simp [batchFloatCols]))
  obtain ⟨hh, hhh⟩ := pyFloat_get2_ok row "hardness" "ipc_hardness_mean" 0
    (hmem _ (by simp [batchFloatCols])) (hmem _ (by simp [batchFloatCols]))
  obtain ⟨w, hw⟩ := pyFloat_get2_ok row "weight" "ipc_weight_mean" 0
    (hmem _ (by simp [batchFloatCols])) (hmem _ (by simp [batchFloatCols]))
  obtain ⟨th, hth⟩ := pyFloat_get2_ok row "thickness" "ipc_thickness_mean" 0
    (hmem _ (by simp [batchFloatCols])) (hmem _ (by simp [batchFloatCols]))
  obtain ⟨yp, hyp⟩ := pyFloat_get2_ok row "yield_percent" "yield_percentage" 98
    (hmem _ (by simp [batchFloatCols])) (hmem _ (by simp [batchFloatCols]))
  refine ⟨⟨get1 row "product_name" (.rawStr "Paracetamol 500mg"), md,
    get2 row "machine" "tablet_press" (.rawStr "Unknown"),
    get1 row "operator" (.rawStr "Unknown"), cf, hh, w, th, yp,
    get1 row "status" (.rawStr "released")⟩, ?_, ?_⟩
  · unfold parseBatchFields
    rw [hmd, hcf, hhh, hw, hth, hyp]
    rfl
  · intro h1 h2
    have heq : pyFloat (get2 row "hardness" "ipc_hardness_mean" (.num 0)) =
        .ok (some 0) := by
      simp [get2, get1, h1, h2, pyFloat]
    rw [heq] at hhh
    simpa using (Except.ok.inj hhh).symm

/-- C6 as amended.  An ABSENT numeric or date column never aborts a batch
upload: per-row defaults take over and the per-row record count still
reaches the number of rows — provided every cell that IS present under a
numeric/date alias parses.  (A present cell that fails to parse raises and
aborts the whole file, per the counterexample.) -/
theorem import_absent_fields_default (now : ℤ) (rows : List Row)
    (store : List (Entry BatchFields))
    (hsafe : ∀ row ∈ rows, BatchRowSafe row) :
    (∃ store', importRows batchKind now rows 0 store = .ok (store', rows.length)) ∧
    (∀ row ∈ rows, getCell row "hardness" = none →
      getCell row "ipc_hardness_mean" = none →
      ∃ f, parseBatchFields now row = .ok f ∧ f.hardness = some 0) := by
  constructor
  · have h := importRows_exists_ok batchKind now rows
      (fun row hr => (parseBatchFields_safe now row (hsafe row hr)).imp
        (fun f hf => hf.1)) 0 store
    simpa using h
  · intro row hr h1 h2
    obtain ⟨f, hf, hh⟩ := parseBatchFields_safe now row (hsafe row hr)
    exact ⟨f, hf, hh h1 h2⟩

/-- Witness for C6 (amended): a one-row file carrying only the key column
is imported with count 1 and hardness defaulted to 0. -/
theorem import_absent_fields_default_witness :
    (∃ store', importRows batchKind 0 [keyOnlyRow] 0
      ([] : List (Entry BatchFields)) = .ok (store', [keyOnlyRow].length)) ∧
    (∃ f, parseBatchFields 0 keyOnlyRow = .ok f ∧ f.hardness = some 0) := by
  have hs : BatchRowSafe keyOnlyRow := by
    constructor
    · intro col hcol cell hcell
      fin_cases hcol <;> simp [getCell, keyOnlyRow] at hcell
    · intro cell hcell
      simp [getCell, keyOnlyRow] at hcell
  have h := import_absent_fields_default 0 [keyOnlyRow] []
    (fun row hr => List.mem_singleton.mp hr ▸ hs)
  exact ⟨h.1, h.2 keyOnlyRow (by simp) (by decide) (by decide)⟩

/-- C9.  Every successful `upload_data` call commits exactly one audit
record — filename, declared kind, and the per-row `records_count` echoed in
the response — appended to the audit table together with the staged rows.
The commit is the single `db.commit()` after the loop: in the model a
`.error` outcome carries no store at all, matching the spec's
single-transaction semantics (the session glue `app/db.py` is not under
`src/`; per the spec, an aborted call leaves nothing committed). -/
theorem dispatchImport_uploads (now : ℤ) (dt : String) (rows : List Row)
    (db db1 : Store) (n : ℕ)
    (h : dispatchImport now dt rows db = .ok (db1, n)) :
    db1.uploads = db.uploads := by
  unfold dispatchImport at h
  by_cases h1 : dt = "batch"
  · rw [if_pos h1] at h
    rcases himp : importRows batchKind now rows 0 db.batches with e | ⟨t, m⟩ <;>
      rw [himp] at h
    · simp at h
    · have h' : Except.ok (({ db with batches := t } : Store), m) =
        .ok (db1, n) := h
      obtain ⟨ha, hb⟩ := Prod.mk.inj (Except.ok.inj h')
      rw [← ha]
  · rw [if_neg h1] at h
    by_cases h2 : dt = "qc"
    · rw [if_pos h2] at h
      rcases himp : importQC now rows 0 db.qcs with e | ⟨t, m⟩ <;>
        rw [himp] at h
      · simp at h
      · have h' : Except.ok (({ db with qcs := t } : Store), m) =
          .ok (db1, n) := h
        obtain ⟨ha, hb⟩ := Prod.mk.inj (Except.ok.inj h')
        rw [← ha]
    · rw [if_neg h2] at h
      by_cases h3 : dt = "complaint"
      · rw [if_pos h3] at h
        rcases himp : importRows complaintKind now rows 0 db.complaints with
          e | ⟨t, m⟩ <;> rw [himp] at h
        · simp at h
        · have h' : Except.ok (({ db with complaints := t } : Store), m) =
            .ok (db1, n) := h
          obtain ⟨ha, hb⟩ := Prod.mk.inj (Except.ok.inj h')
          rw [← ha]
      · rw [if_neg h3] at h
        by_cases h4 : dt = "capa"
        · rw [if_pos h4] at h
          rcases himp : importRows capaKind now rows 0 db.capas with
            e | ⟨t, m⟩ <;> rw [himp] at h
          · simp at h
          · have h' : Except.ok (({ db with capas := t } : Store), m) =
              .ok (db1, n) := h
            obtain ⟨ha, hb⟩ := Prod.mk.inj (Except.ok.inj h')
            rw [← ha]
        · rw [if_neg h4] at h
          by_cases h5 : dt = "equipment"
          · rw [if_pos h5] at h
            rcases himp : importRows equipmentKind now rows 0 db.equipment with
              e | ⟨t, m⟩ <;> rw [himp] at h
            · simp at h
            · have h' : Except.ok (({ db with equipment := t } : Store), m) =
                .ok (db1, n) := h
              obtain ⟨ha, hb⟩ := Prod.mk.inj (Except.ok.inj h')
              rw [← ha]
          · rw [if_neg h5] at h
            obtain ⟨ha, hb⟩ := Prod.mk.inj (Except.ok.inj h)
            rw [← ha]

theorem upload_single_audit_commit (now : ℤ) (fn dt : String) (rows : List Row)
    (db db' : Store) (resp : UploadResponse)
    (h : uploadData now fn dt rows db = .ok (db', resp)) :
    db'.uploads = db.uploads ++ [⟨fn, dt, resp.records_imported⟩] ∧
    resp.filename = fn ∧ resp.data_type = dt := by
  unfold uploadData at h
  split at h
  · exact absurd h (by simp)
  · rcases heq : dispatchImport now dt rows db with e | ⟨db1, n⟩ <;>
      rw [heq] at h
    · simp at h
    · obtain ⟨hdb, hresp⟩ := Prod.mk.inj (Except.ok.inj h)
      have hup := dispatchImport_uploads now dt rows db db1 n heq
      refine ⟨?_, ?_, ?_⟩
      · rw [← hdb, ← hresp]
        show db1.uploads ++ [⟨fn, dt, n⟩] = db.uploads ++ [⟨fn, dt, n⟩]
        rw [hup]
      · rw [← hresp]
      · rw [← hresp]

/-- Witness for C9: one successful batch upload starting from an empty
store. -/
theorem upload_single_audit_commit_witness :
    uploadData 0 "f.csv" "batch" [wRow] emptyStore =
      .ok (⟨wStore1, [], [], [], [], [⟨"f.csv", "batch", 1⟩]⟩,
        ⟨"f.csv", 1, "batch"⟩) ∧
    (⟨wStore1, [], [], [], [], [⟨"f.csv", "batch", 1⟩]⟩ : Store).uploads =
      emptyStore.uploads ++
        [⟨"f.csv", "batch",
          (⟨"f.csv", 1, "batch"⟩ : UploadResponse).records_imported⟩] ∧
    (⟨"f.csv", 1, "batch"⟩ : UploadResponse).filename = "f.csv" ∧
    (⟨"f.csv", 1, "batch"⟩ : UploadResponse).data_type = "batch" :=
  ⟨by decide,
    upload_single_audit_commit 0 "f.csv" "batch" [wRow] emptyStore
      ⟨wStore1, [], [], [], [], [⟨"f.csv", "batch", 1⟩]⟩
      ⟨"f.csv", 1, "batch"⟩ (by decide)⟩

/-- C10.  A `.csv` upload whose declared `data_type` matches none of the five
known kinds is not rejected: no dispatch branch runs, no table row is
staged, yet the audit record (with `records_count = 0`) is still committed
and the response echoes the unknown kind with `records_imported = 0`. -/
theorem unknown_kind_zero_rows (now : ℤ) (fn dt : String) (rows : List Row)
    (db : Store) (hext : endsWithPy fn ".csv" = true)
    (hdt : dt ∉ (["batch", "qc", "complaint", "capa", "equipment"] : List String)) :
    uploadData now fn dt rows db =
      .ok ({ db with uploads := db.uploads ++ [⟨fn, dt, 0⟩] }, ⟨fn, 0, dt⟩) := by
  simp only [List.mem_cons, List.not_mem_nil, or_false, not_or] at hdt
  obtain ⟨h1, h2, h3, h4, h5⟩ := hdt
  unfold uploadData dispatchImport
  rw [if_neg (by simp [hext]), if_neg h1, if_neg h2, if_neg h3, if_neg h4,
    if_neg h5]

/-- Witness for C10: an upload declared as the unrecognized kind
`"environmental"`. -/
theorem unknown_kind_zero_rows_witness :
    endsWithPy "f.csv" ".csv" = true ∧
    ("environmental" ∉
      (["batch", "qc", "complaint", "capa", "equipment"] : List String)) ∧
    uploadData 0 "f.csv" "environmental" [wRow] emptyStore =
      .ok ({ emptyStore with
              uploads := emptyStore.uploads ++ [⟨"f.csv", "environmental", 0⟩] },
        ⟨"f.csv", 0, "environmental"⟩) :=
  ⟨by decide, by decide,
    unknown_kind_zero_rows 0 "f.csv" "environmental" [wRow] emptyStore
      (by decide) (by decide)⟩

/-- Witness for C7: a two-row QC file imported twice into an empty table. -/
theorem qc_rows_always_inserted_witness :
    importQC 0 [wRow, wRow] 0 ([] : List QCRec) =
      .ok ([pvQC 0 wRow, pvQC 0 wRow], 2) ∧
    (2 = [wRow, wRow].length ∧
      [pvQC 0 wRow, pvQC 0 wRow] = [] ++ [wRow, wRow].map (pvQC 0) ∧
      importQC 0 [wRow, wRow] 0 [pvQC 0 wRow, pvQC 0 wRow] =
        .ok ([pvQC 0 wRow, pvQC 0 wRow] ++ [wRow, wRow].map (pvQC 0),
          [wRow, wRow].length) ∧
      ([pvQC 0 wRow, pvQC 0 wRow] ++ [wRow, wRow].map (pvQC 0)).length =
        ([] : List QCRec).length + 2 * [wRow, wRow].length) :=
  ⟨by decide,
    qc_rows_always_inserted 0 [wRow, wRow] [] [pvQC 0 wRow, pvQC 0 wRow] 2
      (by decide)⟩

end NYOS
